import Mathlib

/-!
Shallow embedding of `ls8/cpu.py`: an LS-8 CPU simulator with a 256-byte
RAM, 8 registers (register 7 is the stack pointer, initialised to 0xF4),
three condition flags and a fetch-decode-execute loop.

Modelling conventions:
* Python integers are `Int` (arbitrary precision, arithmetic never wraps
  unless the code masks explicitly).
* Python list indexing is modelled by `pyIdx`: an index `i` with
  `0 ≤ i < len` is used directly, an index with `-len ≤ i < 0` aliases to
  `len + i` (Python negative indexing), anything else raises `IndexError`.
* An exception that the code catches (the `IndexError` in
  `ram_read`/`ram_write`, the `KeyError` of a dispatch-table miss in `run`)
  is modelled by the recovery branch the code executes; an exception that
  nothing catches is modelled as `Except.error` and aborts the run.
* `print` calls are modelled by appending to `output` (the `PRN`
  instruction) or to `errors` (diagnostic messages).
* Python's `x & 0xFF` on an arbitrary int equals reduction modulo 256
  (two's-complement bitwise AND with 255); it is written `x % 256`, which
  is Lean's Euclidean `emod` and agrees with Python `%` for the positive
  modulus 256.  Python's arithmetic right shift `x >> k` is floor division
  by `2^k`, which for a positive divisor agrees with Lean's `Int` division.
-/

set_option maxRecDepth 100000

namespace LS8

/-- Python list-index resolution: direct for `0 ≤ i < n`, negative aliasing
for `-n ≤ i < 0`, `none` (an `IndexError`) otherwise. -/
def pyIdx (n : Nat) (i : Int) : Option Nat :=
  if 0 ≤ i then
    if i < (n : Int) then some i.toNat else none
  else
    if -(n : Int) ≤ i then some (i + (n : Int)).toNat else none

/-- Python `l[i]` on a list of ints. -/
def pyGet (l : List Int) (i : Int) : Option Int :=
  (pyIdx l.length i).map (fun j => l.getD j 0)

/-- Python `l[i] = v` on a list of ints. -/
def pySet (l : List Int) (i : Int) (v : Int) : Option (List Int) :=
  (pyIdx l.length i).map (fun j => l.set j v)

/-- The flags dictionary `self._fl = {"L": 0, "G": 0, "E": 0}`. -/
structure Flags where
  L : Int
  G : Int
  E : Int
deriving DecidableEq

/-- The mutable state of a `CPU` object, plus the observable console
output: `output` records the values printed by `PRN`, `errors` the
diagnostic messages printed by the error-recovery branches. -/
structure CPUState where
  ram : List Int
  reg : List Int
  pc : Int
  ir : Int
  running : Bool
  fl : Flags
  output : List Int
  errors : List String
deriving DecidableEq

/-- `CPU.__init__`: 256 zeroed RAM cells, 8 registers with `reg[7] = 0xF4`,
PC and IR zero, not running, all flags clear. -/
def initState : CPUState :=
  { ram := List.replicate 256 0
    reg := [0, 0, 0, 0, 0, 0, 0, 0xF4]
    pc := 0
    ir := 0
    running := false
    fl := { L := 0, G := 0, E := 0 }
    output := []
    errors := [] }

/-- `CPU.ram_read`: returns `ram[mar]`; on `IndexError` prints a diagnostic
and returns `-1`.  Addresses in `[-256, -1]` are served silently by Python
negative indexing. -/
def ram_read (s : CPUState) (mar : Int) : Int × CPUState :=
  match pyGet s.ram mar with
  | some v => (v, s)
  | none => (-1, { s with errors := s.errors ++ ["Error: Cannot read. MAR out of bounds"] })

/-- `CPU.ram_write`: stores `mdr & 0xFF` at `ram[mar]`; on `IndexError`
prints a diagnostic and leaves RAM unchanged.  `mdr & 0xFF` on a Python int
is reduction modulo 256, written `mdr % 256`. -/
def ram_write (s : CPUState) (mar : Int) (mdr : Int) : CPUState :=
  match pySet s.ram mar (mdr % 256) with
  | some l => { s with ram := l }
  | none => { s with errors := s.errors ++ ["Error: Cannot write. MAR out of bounds"] }

/-- Direct `self.reg[k]` access at a literal in-range index (the register
file always has length 8). -/
def regVal (s : CPUState) (k : Nat) : Int := s.reg.getD k 0

/-- The body of the `operate` closure returned by `CPU.alu`: dispatches on
the operation name; `ADD` and `MUL` store the unmasked Python-int result,
`CMP` replaces the flags dictionary wholesale, and any other name raises
`Exception("Unsupported ALU operation")` (uncaught, modelled as `.error`).
A bad register index raises an uncaught `IndexError`. -/
def aluOperate (s : CPUState) (op : String) (reg_a reg_b : Int) : Except String CPUState :=
  if op = "ADD" then
    match pyGet s.reg reg_a, pyGet s.reg reg_b with
    | some va, some vb =>
      match pySet s.reg reg_a (va + vb) with
      | some l => .ok { s with reg := l }
      | none => .error "IndexError"
    | _, _ => .error "IndexError"
  else if op = "MUL" then
    match pyGet s.reg reg_a, pyGet s.reg reg_b with
    | some va, some vb =>
      match pySet s.reg reg_a (va * vb) with
      | some l => .ok { s with reg := l }
      | none => .error "IndexError"
    | _, _ => .error "IndexError"
  else if op = "CMP" then
    match pyGet s.reg reg_a, pyGet s.reg reg_b with
    | some va, some vb =>
      if va = vb then .ok { s with fl := { L := 0, G := 0, E := 1 } }
      else if va < vb then .ok { s with fl := { L := 1, G := 0, E := 0 } }
      else .ok { s with fl := { L := 0, G := 1, E := 0 } }
    | _, _ => .error "IndexError"
  else .error "Unsupported ALU operation"

/-- The `HLT` closure in `run`: clears the running flag. -/
def HLT (s : CPUState) : Except String CPUState :=
  .ok { s with running := false }

/-- The `LDI` closure in `run`: `reg[operand_a] = operand_b` (unmasked). -/
def LDI (s : CPUState) (operand_a operand_b : Int) : Except String CPUState :=
  match pySet s.reg operand_a operand_b with
  | some l => .ok { s with reg := l }
  | none => .error "IndexError"

/-- The `PRN` closure in `run`: prints `reg[operand_a]`. -/
def PRN (s : CPUState) (operand_a : Int) : Except String CPUState :=
  match pyGet s.reg operand_a with
  | some v => .ok { s with output := s.output ++ [v] }
  | none => .error "IndexError"

/-- The `PUSH` closure in `run`: `reg[7] -= 1`, then
`ram_write(reg[7], reg[operand_a])`. -/
def PUSH (s : CPUState) (operand_a : Int) : Except String CPUState :=
  let s1 : CPUState := { s with reg := s.reg.set 7 (regVal s 7 - 1) }
  match pyGet s1.reg operand_a with
  | some v => .ok (ram_write s1 (regVal s1 7) v)
  | none => .error "IndexError"

/-- The `POP` closure in `run`: `reg[operand_a] = ram_read(reg[7])`, then
`reg[7] += 1`. -/
def POP (s : CPUState) (operand_a : Int) : Except String CPUState :=
  let p := ram_read s (regVal s 7)
  match pySet p.2.reg operand_a p.1 with
  | some l =>
    let s2 : CPUState := { p.2 with reg := l }
    .ok { s2 with reg := s2.reg.set 7 (regVal s2 7 + 1) }
  | none => .error "IndexError"

/-- The `CALL` closure in `run`: `reg[7] -= 1`,
`ram_write(reg[7], pc + 2)`, `pc = reg[operand_a]`. -/
def CALL (s : CPUState) (operand_a : Int) : Except String CPUState :=
  let s1 : CPUState := { s with reg := s.reg.set 7 (regVal s 7 - 1) }
  let s2 := ram_write s1 (regVal s1 7) (s1.pc + 2)
  match pyGet s2.reg operand_a with
  | some t => .ok { s2 with pc := t }
  | none => .error "IndexError"

/-- The `RET` closure in `run`: `pc = ram_read(reg[7])`, `reg[7] += 1`. -/
def RET (s : CPUState) : Except String CPUState :=
  let p := ram_read s (regVal s 7)
  let s1 : CPUState := { p.2 with pc := p.1 }
  .ok { s1 with reg := s1.reg.set 7 (regVal s1 7 + 1) }

/-- The `JMP` closure in `run`: `reg[7] -= 1`, `pc = reg[operand_a]`.
Note the SP decrement with no matching increment. -/
def JMP (s : CPUState) (operand_a : Int) : Except String CPUState :=
  let s1 : CPUState := { s with reg := s.reg.set 7 (regVal s 7 - 1) }
  match pyGet s1.reg operand_a with
  | some t => .ok { s1 with pc := t }
  | none => .error "IndexError"

/-- The `JEQ` closure in `run`: if flag `E` is truthy behave like `JMP`,
else advance PC by `1 + operand_count`. -/
def JEQ (s : CPUState) (operand_a operand_count : Int) : Except String CPUState :=
  if s.fl.E ≠ 0 then JMP s operand_a
  else .ok { s with pc := s.pc + 1 + operand_count }

/-- The `JNE` closure in `run`: if flag `E` is falsy behave like `JMP`,
else advance PC by `1 + operand_count`. -/
def JNE (s : CPUState) (operand_a operand_count : Int) : Except String CPUState :=
  if s.fl.E = 0 then JMP s operand_a
  else .ok { s with pc := s.pc + 1 + operand_count }

/-- The `dispatch` table in `run` (keys 1, 2, 7, 5, 6); a missing key is a
`KeyError` that `run` catches, printing a diagnostic and continuing. -/
def coreDispatch (s : CPUState) (command operand_a operand_b : Int) : Except String CPUState :=
  if command = 1 then HLT s
  else if command = 2 then LDI s operand_a operand_b
  else if command = 7 then PRN s operand_a
  else if command = 5 then PUSH s operand_a
  else if command = 6 then POP s operand_a
  else .ok { s with errors := s.errors ++ ["Error: command not found"] }

/-- The `alu_dispatch` table in `run` (keys 0, 2, 7, bound to the `operate`
closures for `"ADD"`, `"MUL"`, `"CMP"`); a missing key is a `KeyError`
that `run` catches, printing a diagnostic and continuing. -/
def aluDispatch (s : CPUState) (command operand_a operand_b : Int) : Except String CPUState :=
  if command = 0 then aluOperate s "ADD" operand_a operand_b
  else if command = 2 then aluOperate s "MUL" operand_a operand_b
  else if command = 7 then aluOperate s "CMP" operand_a operand_b
  else .ok { s with errors := s.errors ++ ["Error: alu command not found"] }

/-- The `pc_dispatch` table in `run` (keys 0, 1, 4, 5, 6); a missing key is
a `KeyError` that `run` catches, printing a diagnostic and continuing. -/
def pcDispatch (s : CPUState) (command operand_a operand_count : Int) : Except String CPUState :=
  if command = 0 then CALL s operand_a
  else if command = 1 then RET s
  else if command = 4 then JMP s operand_a
  else if command = 5 then JEQ s operand_a operand_count
  else if command = 6 then JNE s operand_a operand_count
  else .ok { s with errors := s.errors ++ ["Error: pc command not found"] }

/-- One iteration of the `while self.running` loop in `CPU.run`: fetch the
opcode and two speculative operand bytes, decode (`ir >> 6` is
`ir / 64`, `ir >> 5 & 1` is `ir / 32 % 2`, `ir >> 4 & 1` is
`ir / 16 % 2`, `ir & 0b111` is `ir % 8`), dispatch on
`(sets_pc, is_alu)`, then advance PC by `1 + operand_count` unless
`sets_pc`. -/
def step (s0 : CPUState) : Except String CPUState :=
  let p := ram_read s0 s0.pc
  let s1 : CPUState := { p.2 with ir := p.1 }
  let q := ram_read s1 (s1.pc + 1)
  let operand_a := q.1
  let r := ram_read q.2 (q.2.pc + 2)
  let operand_b := r.1
  let s := r.2
  let operand_count := s.ir / 64
  let is_alu := s.ir / 32 % 2
  let sets_pc := s.ir / 16 % 2
  let command := s.ir % 8
  let dispatched : Except String CPUState :=
    if sets_pc ≠ 0 then pcDispatch s command operand_a operand_count
    else if is_alu ≠ 0 then aluDispatch s command operand_a operand_b
    else coreDispatch s command operand_a operand_b
  match dispatched with
  | .error e => .error e
  | .ok t =>
    if sets_pc ≠ 0 then .ok t
    else .ok { t with pc := t.pc + 1 + operand_count }

/-- The `while self.running` loop of `CPU.run`, with explicit fuel; once
`running` is false the loop exits and the state is final. -/
def runLoop : Nat → CPUState → Except String CPUState
  | 0, s => .ok s
  | n + 1, s => if s.running then Except.bind (step s) (runLoop n) else .ok s

/-- `CPU.run`: sets `running = True` then iterates the loop. -/
def run (fuel : Nat) (s : CPUState) : Except String CPUState :=
  runLoop fuel { s with running := true }

/-- The loop inside `CPU.load` that copies the parsed program bytes into
RAM starting at address 0. -/
def loadFrom (ram : List Int) (address : Nat) : List Int → List Int
  | [] => ram
  | b :: rest => loadFrom (ram.set address b) (address + 1) rest

/-- `CPU.load` after parsing: the program image written into RAM from
address 0. -/
def load (s : CPUState) (program : List Int) : CPUState :=
  { s with ram := loadFrom s.ram 0 program }

/-- Executing `PUSH` immediately followed by `POP` (claim-level
composition of the two handlers). -/
def pushPop (s : CPUState) (r q : Int) : Except String CPUState :=
  Except.bind (PUSH s r) (fun t => POP t q)

/-- Executing `CALL` immediately followed by the `RET` at the callee
(claim-level composition of the two handlers). -/
def callRet (s : CPUState) (r : Int) : Except String CPUState :=
  Except.bind (CALL s r) (fun t => RET t)

/-! ### Helper lemmas about list access -/

theorem getD_set_self (l : List Int) (i : Nat) (v : Int) (h : i < l.length) :
    (l.set i v).getD i 0 = v := by
  rw [List.getD_eq_getElem _ _ (by simpa using h)]
  simp [List.getElem_set]

theorem getD_set_ne (l : List Int) (i j : Nat) (v : Int) (h : i ≠ j) :
    (l.set i v).getD j 0 = l.getD j 0 := by
  simp [List.getD_eq_getD_get?, List.get?_eq_getElem?, List.getElem?_set_ne h]

theorem pyIdx_of_nonneg {n : Nat} {i : Int} (h0 : 0 ≤ i) (h1 : i < (n : Int)) :
    pyIdx n i = some i.toNat := by
  unfold pyIdx
  rw [if_pos h0, if_pos h1]

theorem pyGet_of_nonneg {l : List Int} {i : Int} (h0 : 0 ≤ i) (h1 : i < (l.length : Int)) :
    pyGet l i = some (l.getD i.toNat 0) := by
  unfold pyGet
  rw [pyIdx_of_nonneg h0 h1]
  rfl

theorem pySet_of_nonneg {l : List Int} {i : Int} (v : Int) (h0 : 0 ≤ i)
    (h1 : i < (l.length : Int)) : pySet l i v = some (l.set i.toNat v) := by
  unfold pySet
  rw [pyIdx_of_nonneg h0 h1]
  rfl

theorem pyGet_getD {l : List Int} {i : Int} {v : Int} (h0 : 0 ≤ i)
    (h1 : i < (l.length : Int)) (h : pyGet l i = some v) : l.getD i.toNat 0 = v := by
  rw [pyGet_of_nonneg h0 h1] at h
  exact Option.some.inj h

theorem ram_read_fst {s : CPUState} {m : Int} (h0 : 0 ≤ m) (h1 : m < (s.ram.length : Int)) :
    (ram_read s m).1 = s.ram.getD m.toNat 0 := by
  unfold ram_read
  rw [pyGet_of_nonneg h0 h1]

theorem ram_read_snd_ram (s : CPUState) (m : Int) : (ram_read s m).2.ram = s.ram := by
  unfold ram_read
  cases pyGet s.ram m <;> rfl

theorem ram_read_snd_reg (s : CPUState) (m : Int) : (ram_read s m).2.reg = s.reg := by
  unfold ram_read
  cases pyGet s.ram m <;> rfl

theorem ram_read_snd_pc (s : CPUState) (m : Int) : (ram_read s m).2.pc = s.pc := by
  unfold ram_read
  cases pyGet s.ram m <;> rfl

theorem ram_read_snd_ir (s : CPUState) (m : Int) : (ram_read s m).2.ir = s.ir := by
  unfold ram_read
  cases pyGet s.ram m <;> rfl

theorem ram_read_snd_running (s : CPUState) (m : Int) : (ram_read s m).2.running = s.running := by
  unfold ram_read
  cases pyGet s.ram m <;> rfl

theorem ram_read_snd_fl (s : CPUState) (m : Int) : (ram_read s m).2.fl = s.fl := by
  unfold ram_read
  cases pyGet s.ram m <;> rfl

theorem ram_read_snd_output (s : CPUState) (m : Int) : (ram_read s m).2.output = s.output := by
  unfold ram_read
  cases pyGet s.ram m <;> rfl

theorem ram_read_in_bounds {s : CPUState} {m : Int} (h0 : 0 ≤ m)
    (h1 : m < (s.ram.length : Int)) : ram_read s m = (s.ram.getD m.toNat 0, s) := by
  unfold ram_read
  rw [pyGet_of_nonneg h0 h1]

theorem ram_write_in_bounds {s : CPUState} {m : Int} (v : Int) (h0 : 0 ≤ m)
    (h1 : m < (s.ram.length : Int)) :
    ram_write s m v = { s with ram := s.ram.set m.toNat (v % 256) } := by
  unfold ram_write
  rw [pySet_of_nonneg _ h0 h1]

/-! ### Claim theorems -/

/-- Claim C1 (status: code_bug).  The spec says `ADD` stores
`(reg[a] + reg[b]) mod 256`, so that with `reg[0]=200`, `reg[1]=100`,
`ADD 0 1` leaves `reg[0] = 44`.  The code performs `self.reg[reg_a] +=
self.reg[reg_b]` with no reduction, so the program `LDI r0,200; LDI r1,100;
ADD 0 1; PRN 0; HLT` prints 300, not 44 — even though `ram_write` masks
with `0xFF` and `trace` formats registers as two-digit hex, both assuming
8-bit register values.  This theorem evaluates the code at the failing
input. -/
theorem C1_add_not_reduced_mod_256 :
    (run 10 (load initState [130, 0, 200, 130, 1, 100, 160, 0, 1, 71, 0, 1])).map
      (fun t => (t.output, t.running)) = .ok ([300], false) ∧
    (aluOperate { initState with reg := [200, 100, 0, 0, 0, 0, 0, 244] } "ADD" 0 1).map
      (fun t => t.reg.getD 0 0) = .ok 300 := by
  exact ⟨rfl, rfl⟩

/-- Claim C2 counterexample.  The claim says an ALU-routed cycle with a
selector outside {ADD, MUL, CMP} is fatal to the run: the loop stops with
an error.  Running the image `[0b10100001, 0, 0, HLT]`, whose first
instruction decodes as an ALU operation with selector 1, the run does not
stop there: the miss is reported as a diagnostic and the loop continues,
executing the following `HLT` normally (final state is `.ok`, `running`
is false, PC is 4). -/
theorem C2_unsupported_alu_not_fatal :
    (run 10 (load initState [161, 0, 0, 1])).map
      (fun t => (t.running, t.pc, t.errors, t.output)) =
      .ok (false, 4, ["Error: alu command not found"], []) := by
  rfl

/-- Claim C3 (status: code_bug).  The claim (and the spec) say `JMP` sets
`PC = reg[r]` and changes nothing else.  The `JMP` handler first executes
`self.reg[7] -= 1`: starting from the initial state (`reg[7] = 0xF4 =
244`), `JMP 0` jumps to `reg[0] = 0` but leaves `reg[7] = 243` — the
stack-pointer decrement with no matching increment that the spec itself
flags as unintentional.  This theorem evaluates the code at the failing
input. -/
theorem C3_jmp_decrements_sp :
    (JMP initState 0).map (fun t => (t.reg, t.pc)) =
      .ok ([0, 0, 0, 0, 0, 0, 0, 243], 0) := by
  rfl

/-- Claim C4 (status: code_bug).  The claim (and the spec) say `PUSH`
errors when SP would go below 0, and that SP underflow is never silently
ignored.  With `reg[7] = 0` and `reg[0] = 5`, `PUSH 0` sets `reg[7] = -1`
and then `ram_write(-1, 5)` silently writes 5 into `ram[255]` through
Python negative indexing: no diagnostic is printed and the write is not
skipped.  This theorem evaluates the code at the failing input. -/
theorem C4_push_underflow_silent_write :
    (PUSH { initState with reg := [5, 0, 0, 0, 0, 0, 0, 0] } 0).map
      (fun t => (t.reg.getD 7 0, t.ram.getD 255 0, t.errors)) =
      .ok (-1, 5, []) := by
  rfl

/-- Claim C5 (status: confirmed).  Running the loaded six-byte image
`[0b10000010, 0, 8, 0b01000111, 0, 0b00000001]` (`LDI r0, 8; PRN r0;
HLT`) runs to completion: it prints 8 exactly once, halts (`running`
becomes false, so the loop exits rather than exhausting its fuel), and PC
ends at 6. -/
theorem C5_demo_image_prints_8_halts_pc_6 :
    (run 10 (load initState [130, 0, 8, 71, 0, 1])).map
      (fun t => (t.output, t.running, t.pc, t.errors)) =
      .ok ([8], false, 6, []) := by
  rfl

/-- Claim C9 counterexample.  The claim says every address outside
`[0, 256)` is rejected: a read returns the error sentinel and a write
changes nothing.  Address `-1` is outside `[0, 256)`, yet reading it
returns the value stored at `ram[255]` (7 here, not the sentinel `-1`)
with no diagnostic, and writing to it changes `ram[255]` — Python
negative indexing silently aliases addresses in `[-256, -1]` onto the top
of memory. -/
theorem C9_negative_address_served_silently :
    (ram_read { initState with ram := initState.ram.set 255 7 } (-1)).1 = 7 ∧
    (ram_read { initState with ram := initState.ram.set 255 7 } (-1)).2.errors = [] ∧
    (ram_write initState (-1) 9).ram.getD 255 0 = 9 ∧
    (ram_write initState (-1) 9).errors = [] := by
  exact ⟨rfl, rfl, rfl, rfl⟩

/-- Claim C6 (status: confirmed).  After every execution of the `CMP`
operation the flags are overwritten as a whole with exactly one of the
three values `{E=1}`, `{L=1}`, `{G=1}` (so exactly one of {L, G, E} is
set and the other two are clear), with `E=1` iff `reg[a] = reg[b]`,
`L=1` iff `reg[a] < reg[b]`, and `G=1` otherwise (iff `reg[b] < reg[a]`).
Register values are Python ints; on the 8-bit values the machine stores,
this comparison is the unsigned comparison the spec describes. -/
theorem C6_cmp_exactly_one_flag (s : CPUState) (a b va vb : Int)
    (ha : pyGet s.reg a = some va) (hb : pyGet s.reg b = some vb) :
    ((aluOperate s "CMP" a b).map (fun t => t.fl) = .ok { L := 0, G := 0, E := 1 } ∨
     (aluOperate s "CMP" a b).map (fun t => t.fl) = .ok { L := 1, G := 0, E := 0 } ∨
     (aluOperate s "CMP" a b).map (fun t => t.fl) = .ok { L := 0, G := 1, E := 0 }) ∧
    ((aluOperate s "CMP" a b).map (fun t => t.fl) = .ok { L := 0, G := 0, E := 1 } ↔ va = vb) ∧
    ((aluOperate s "CMP" a b).map (fun t => t.fl) = .ok { L := 1, G := 0, E := 0 } ↔ va < vb) ∧
    ((aluOperate s "CMP" a b).map (fun t => t.fl) = .ok { L := 0, G := 1, E := 0 } ↔ vb < va) := by
  have hx : aluOperate s "CMP" a b =
      (if va = vb then .ok { s with fl := { L := 0, G := 0, E := 1 } }
       else if va < vb then .ok { s with fl := { L := 1, G := 0, E := 0 } }
       else .ok { s with fl := { L := 0, G := 1, E := 0 } }) := by
    unfold aluOperate
    rw [if_neg (by decide), if_neg (by decide), if_pos rfl, ha, hb]
  rw [hx]
  by_cases h1 : va = vb
  · rw [if_pos h1]
    simp [Except.map, h1]
  · rw [if_neg h1]
    by_cases h2 : va < vb
    · rw [if_pos h2]
      simp [Except.map, h1, h2]
      omega
    · rw [if_neg h2]
      have h3 : vb < va := by omega
      simp [Except.map, h1, h2, h3]

/-- Witness for C6: `CMP` on the initial state with `a = 0`, `b = 1`
(both registers hold 0). -/
theorem C6_cmp_exactly_one_flag_witness :
    pyGet initState.reg 0 = some 0 ∧ pyGet initState.reg 1 = some 0 ∧
    (((aluOperate initState "CMP" 0 1).map (fun t => t.fl) = .ok { L := 0, G := 0, E := 1 } ∨
      (aluOperate initState "CMP" 0 1).map (fun t => t.fl) = .ok { L := 1, G := 0, E := 0 } ∨
      (aluOperate initState "CMP" 0 1).map (fun t => t.fl) = .ok { L := 0, G := 1, E := 0 }) ∧
     ((aluOperate initState "CMP" 0 1).map (fun t => t.fl) = .ok { L := 0, G := 0, E := 1 } ↔
        (0 : Int) = 0) ∧
     ((aluOperate initState "CMP" 0 1).map (fun t => t.fl) = .ok { L := 1, G := 0, E := 0 } ↔
        (0 : Int) < 0) ∧
     ((aluOperate initState "CMP" 0 1).map (fun t => t.fl) = .ok { L := 0, G := 1, E := 0 } ↔
        (0 : Int) < 0)) :=
  ⟨rfl, rfl, C6_cmp_exactly_one_flag initState 0 1 0 0 rfl rfl⟩

/-- Characterisation of `PUSH` when the operand is a valid non-SP register
and the decremented SP is a valid address. -/
theorem PUSH_ok {s : CPUState} {r v : Int} (hreg : s.reg.length = 8)
    (hram : s.ram.length = 256) (hr0 : 0 ≤ r) (hr8 : r < 8) (hr7 : r.toNat ≠ 7)
    (hv : pyGet s.reg r = some v) (hsp1 : 1 ≤ regVal s 7) (hsp2 : regVal s 7 ≤ 256) :
    PUSH s r = .ok { s with reg := s.reg.set 7 (regVal s 7 - 1),
                            ram := s.ram.set (regVal s 7 - 1).toNat (v % 256) } := by
  have hgv : s.reg.getD r.toNat 0 = v :=
    pyGet_getD hr0 (by rw [hreg]; exact_mod_cast hr8) hv
  have h1 : pyGet (s.reg.set 7 (regVal s 7 - 1)) r = some v := by
    rw [pyGet_of_nonneg hr0 (by rw [List.length_set, hreg]; exact_mod_cast hr8)]
    rw [getD_set_ne _ _ _ _ (fun h => hr7 h.symm), hgv]
  simp only [PUSH, h1]
  have h2 : regVal { s with reg := s.reg.set 7 (regVal s 7 - 1) } 7 = regVal s 7 - 1 := by
    simp only [regVal]
    exact getD_set_self _ _ _ (by rw [hreg]; omega)
  rw [h2]
  rw [ram_write_in_bounds _ (by omega) (by simp only []; rw [hram]; push_cast; omega)]

/-- Characterisation of `POP` when the operand is a valid register and SP
is a valid address. -/
theorem POP_ok {s : CPUState} {q : Int} (hreg : s.reg.length = 8)
    (hram : s.ram.length = 256) (hq0 : 0 ≤ q) (hq8 : q < 8)
    (hsp0 : 0 ≤ regVal s 7) (hsp1 : regVal s 7 < 256) :
    POP s q = .ok { s with
      reg := (s.reg.set q.toNat (s.ram.getD (regVal s 7).toNat 0)).set 7
        ((s.reg.set q.toNat (s.ram.getD (regVal s 7).toNat 0)).getD 7 0 + 1) } := by
  have h1 : pySet s.reg q (s.ram.getD (regVal s 7).toNat 0) =
      some (s.reg.set q.toNat (s.ram.getD (regVal s 7).toNat 0)) :=
    pySet_of_nonneg _ hq0 (by rw [hreg]; exact_mod_cast hq8)
  simp only [POP, ram_read_in_bounds hsp0 (by rw [hram]; exact_mod_cast hsp1)]
  simp only [regVal] at h1 ⊢
  simp only [h1]

/-- Claim C7 (status: confirmed).  From any machine state in which the
stack accesses stay in bounds (`1 ≤ SP ≤ 256`, 256 RAM cells), with `r`
and `q` distinct general-purpose registers (indices below 7 — register 7
is the reserved stack pointer) and `reg[r]` holding an 8-bit value as the
data model requires, `PUSH r` immediately followed by `POP q` leaves
`reg[q]` equal to the value `reg[r]` had before the `PUSH`, and SP
(`reg[7]`) equal to its pre-PUSH value. -/
theorem C7_push_pop_roundtrip (s : CPUState) (r q v sp : Int)
    (hreg : s.reg.length = 8) (hram : s.ram.length = 256)
    (hr : 0 ≤ r ∧ r < 7) (hq : 0 ≤ q ∧ q < 7) (_hrq : r ≠ q)
    (hv : pyGet s.reg r = some v) (hvB : 0 ≤ v ∧ v < 256)
    (hsp : regVal s 7 = sp) (hspB : 1 ≤ sp ∧ sp ≤ 256) :
    (pushPop s r q).map (fun t => (pyGet t.reg q, regVal t 7)) = .ok (some v, sp) := by
  obtain ⟨hr0, hr7⟩ := hr
  obtain ⟨hq0, hq7⟩ := hq
  obtain ⟨hv0, hv1⟩ := hvB
  obtain ⟨hsp1, hsp2⟩ := hspB
  have hvmod : v % 256 = v := Int.emod_eq_of_lt hv0 hv1
  have hPUSH := PUSH_ok (v := v) hreg hram hr0 (by omega) (by omega) hv
    (by rw [hsp]; omega) (by rw [hsp]; omega)
  rw [hsp, hvmod] at hPUSH
  set sA : CPUState :=
    { s with reg := s.reg.set 7 (sp - 1), ram := s.ram.set (sp - 1).toNat v } with hsA
  have hsAreg : sA.reg.length = 8 := by rw [hsA]; simp [List.length_set, hreg]
  have hsAram : sA.ram.length = 256 := by rw [hsA]; simp [List.length_set, hram]
  have hsAsp : regVal sA 7 = sp - 1 := by
    rw [hsA]; simp only [regVal]; exact getD_set_self _ _ _ (by rw [hreg]; omega)
  have hPOP := POP_ok (s := sA) (q := q) hsAreg hsAram hq0 (by omega)
    (by rw [hsAsp]; omega) (by rw [hsAsp]; omega)
  rw [hsAsp] at hPOP
  have hw : sA.ram.getD (sp - 1).toNat 0 = v := by
    rw [hsA]; exact getD_set_self _ _ _ (by rw [hram]; omega)
  rw [hw] at hPOP
  have hg7 : (sA.reg.set q.toNat v).getD 7 0 = sp - 1 := by
    rw [getD_set_ne _ _ _ _ (by omega)]
    exact hsAsp
  rw [hg7] at hPOP
  have hspfix : sp - 1 + 1 = sp := by omega
  rw [hspfix] at hPOP
  simp only [pushPop, hPUSH, Except.bind, hPOP, Except.map]
  have hfin1 : pyGet ((sA.reg.set q.toNat v).set 7 sp) q = some v := by
    rw [pyGet_of_nonneg hq0 (by simp [List.length_set, hsAreg]; omega)]
    rw [getD_set_ne _ _ _ _ (by omega)]
    rw [getD_set_self _ _ _ (by simp [List.length_set, hsAreg]; omega)]
  have hfin2 : ((sA.reg.set q.toNat v).set 7 sp).getD 7 0 = sp := by
    exact getD_set_self _ _ _ (by simp [List.length_set, hsAreg])
  simp only [regVal, hfin1, hfin2]

/-- Witness for C7: push register 0 (holding 9) and pop into register 1
from the initial SP (0xF4 = 244). -/
theorem C7_push_pop_roundtrip_witness :
    (pushPop { initState with reg := [9, 0, 0, 0, 0, 0, 0, 244] } 0 1).map
      (fun t => (pyGet t.reg 1, regVal t 7)) = .ok (some 9, 244) :=
  C7_push_pop_roundtrip _ 0 1 9 244 rfl rfl (by decide) (by decide) (by decide) rfl
    (by decide) rfl (by decide)

/-- Characterisation of `CALL` when the operand is a valid register and
the decremented SP is a valid address. -/
theorem CALL_ok {s : CPUState} {r : Int} (hreg : s.reg.length = 8)
    (hram : s.ram.length = 256) (hr0 : 0 ≤ r) (hr8 : r < 8)
    (hsp1 : 1 ≤ regVal s 7) (hsp2 : regVal s 7 ≤ 256) :
    CALL s r = .ok { s with
      reg := s.reg.set 7 (regVal s 7 - 1),
      ram := s.ram.set (regVal s 7 - 1).toNat ((s.pc + 2) % 256),
      pc := (s.reg.set 7 (regVal s 7 - 1)).getD r.toNat 0 } := by
  have h2 : regVal { s with reg := s.reg.set 7 (regVal s 7 - 1) } 7 = regVal s 7 - 1 := by
    simp only [regVal]
    exact getD_set_self _ _ _ (by rw [hreg]; omega)
  have h3 : pyGet (s.reg.set 7 (regVal s 7 - 1)) r =
      some ((s.reg.set 7 (regVal s 7 - 1)).getD r.toNat 0) :=
    pyGet_of_nonneg hr0 (by rw [List.length_set, hreg]; exact_mod_cast hr8)
  simp only [CALL, h2]
  rw [ram_write_in_bounds _ (by omega) (by simp only []; rw [hram]; push_cast; omega)]
  simp only [h3]

/-- Characterisation of `RET` when SP is a valid address. -/
theorem RET_ok {s : CPUState} (hsp0 : 0 ≤ regVal s 7) (hram : s.ram.length = 256)
    (hsp1 : regVal s 7 < 256) :
    RET s = .ok { s with pc := s.ram.getD (regVal s 7).toNat 0,
                         reg := s.reg.set 7 (regVal s 7 + 1) } := by
  simp only [RET, ram_read_in_bounds hsp0 (by rw [hram]; exact_mod_cast hsp1)]
  simp only [regVal]

/-- Claim C8 (status: confirmed).  From any machine state in which the
stack accesses stay in bounds (`1 ≤ SP ≤ 256`, 256 RAM cells) and the
pushed return address `PC + 2` is a byte (so the `& 0xFF` mask in
`ram_write` is the identity on it), executing `CALL r` (which pushes
`PC + 2` and jumps to `reg[r]`) followed by executing `RET` at the callee
sets PC to `PC_before + 2`, the address of the instruction immediately
after the CALL and its operand, and restores SP to its pre-CALL value. -/
theorem C8_call_ret_roundtrip (s : CPUState) (r sp : Int)
    (hreg : s.reg.length = 8) (hram : s.ram.length = 256)
    (hr : 0 ≤ r ∧ r < 8)
    (hsp : regVal s 7 = sp) (hspB : 1 ≤ sp ∧ sp ≤ 256)
    (hpc : 0 ≤ s.pc ∧ s.pc + 2 < 256) :
    (callRet s r).map (fun t => (t.pc, regVal t 7)) = .ok (s.pc + 2, sp) := by
  obtain ⟨hr0, hr8⟩ := hr
  obtain ⟨hsp1, hsp2⟩ := hspB
  obtain ⟨hpc0, hpc1⟩ := hpc
  have hmod : (s.pc + 2) % 256 = s.pc + 2 := Int.emod_eq_of_lt (by omega) hpc1
  have hCALL := CALL_ok (r := r) hreg hram hr0 hr8 (by rw [hsp]; omega) (by rw [hsp]; omega)
  rw [hsp, hmod] at hCALL
  set sB : CPUState := { s with
    reg := s.reg.set 7 (sp - 1),
    ram := s.ram.set (sp - 1).toNat (s.pc + 2),
    pc := (s.reg.set 7 (sp - 1)).getD r.toNat 0 } with hsB
  have hsBram : sB.ram.length = 256 := by rw [hsB]; simp [List.length_set, hram]
  have hsBsp : regVal sB 7 = sp - 1 := by
    rw [hsB]; simp only [regVal]; exact getD_set_self _ _ _ (by rw [hreg]; omega)
  have hRET := RET_ok (s := sB) (by rw [hsBsp]; omega) hsBram (by rw [hsBsp]; omega)
  rw [hsBsp] at hRET
  have hw : sB.ram.getD (sp - 1).toNat 0 = s.pc + 2 := by
    rw [hsB]; exact getD_set_self _ _ _ (by rw [hram]; omega)
  rw [hw] at hRET
  have hspfix : sp - 1 + 1 = sp := by omega
  rw [hspfix] at hRET
  simp only [callRet, hCALL, Except.bind, hRET, Except.map]
  have hfin : ((sB.reg.set 7 sp)).getD 7 0 = sp :=
    getD_set_self _ _ _ (by rw [hsB]; simp [List.length_set, hreg])
  simp only [regVal, hfin]

/-- Witness for C8: `CALL 0` from PC 10 with `reg[0] = 30` and the
initial SP, then `RET` at the callee; PC comes back to 12 and SP to
244. -/
theorem C8_call_ret_roundtrip_witness :
    (callRet { initState with reg := [30, 0, 0, 0, 0, 0, 0, 244], pc := 10 } 0).map
      (fun t => (t.pc, regVal t 7)) = .ok (12, 244) :=
  C8_call_ret_roundtrip _ 0 244 rfl rfl (by decide) rfl (by decide) (by decide)

/-- A miss in the `alu_dispatch` table raises `KeyError`, which `run`
catches: it prints a diagnostic and returns normally. -/
theorem aluDispatch_miss (s : CPUState) (c a b : Int)
    (h0 : c ≠ 0) (h2 : c ≠ 2) (h7 : c ≠ 7) :
    aluDispatch s c a b =
      .ok { s with errors := s.errors ++ ["Error: alu command not found"] } := by
  unfold aluDispatch
  rw [if_neg h0, if_neg h2, if_neg h7]

/-- Claim C2 amended theorem (status: corrected).  A cycle whose decoded
opcode routes to the ALU (`is_alu` set, `sets_pc` clear) with a selector
outside {ADD, MUL, CMP} (table keys 0, 2, 7) is NOT fatal: the run-level
dispatch-table miss is caught, a diagnostic is printed (it becomes the
last error message), and execution continues exactly like the lenient
unknown-opcode path — registers, RAM, output and the running flag are
untouched and PC advances by `1 + operand_count`.  The fatal
`Exception("Unsupported ALU operation")` inside `CPU.alu` is unreachable
from `run`, which only builds ALU thunks for the three supported names. -/
theorem C2_alu_miss_reported_and_continues (s : CPUState) (ir : Int)
    (hir : (ram_read s s.pc).1 = ir)
    (halu : ir / 32 % 2 ≠ 0) (hpcb : ir / 16 % 2 = 0)
    (hc0 : ir % 8 ≠ 0) (hc2 : ir % 8 ≠ 2) (hc7 : ir % 8 ≠ 7) :
    (step s).map (fun t => (t.running, t.reg, t.ram, t.pc, t.output, t.errors.getLast?)) =
      .ok (s.running, s.reg, s.ram, s.pc + 1 + ir / 64, s.output,
           some "Error: alu command not found") := by
  unfold step
  simp only [ram_read_snd_pc, ram_read_snd_ir, ram_read_snd_reg, ram_read_snd_ram,
    ram_read_snd_running, ram_read_snd_output, ram_read_snd_fl]
  simp only [hir]
  rw [if_neg (show ¬(ir / 16 % 2 ≠ 0) by omega)]
  rw [if_pos halu]
  rw [aluDispatch_miss _ _ _ _ hc0 hc2 hc7]
  simp [Except.map, hpcb, List.getLast?_concat, ram_read_snd_pc, ram_read_snd_reg,
    ram_read_snd_ram, ram_read_snd_running, ram_read_snd_ir, ram_read_snd_output,
    ram_read_snd_fl]

/-- The loaded bad-ALU image used to witness C2: opcode `0b10100001`
decodes to an ALU operation with selector 1, which is in none of
{ADD, MUL, CMP}. -/
def c2state : CPUState := { load initState [161, 0, 0, 1] with running := true }

/-- Witness for C2's amended theorem at the concrete bad-ALU state. -/
theorem C2_alu_miss_reported_and_continues_witness :
    (step c2state).map
      (fun t => (t.running, t.reg, t.ram, t.pc, t.output, t.errors.getLast?)) =
      .ok (c2state.running, c2state.reg, c2state.ram, c2state.pc + 1 + 161 / 64,
           c2state.output, some "Error: alu command not found") :=
  C2_alu_miss_reported_and_continues c2state 161 rfl (by decide) (by decide) (by decide)
    (by decide) (by decide)

/-- The program used to show an out-of-bounds access is non-fatal: running
it performs thirteen `POP`s from the initial SP 0xF4, the last of which
executes `ram_read(256)` — one past the end of memory — and the loop
still reaches the final `HLT`. -/
def oobProgram : List Int :=
  [70, 0, 70, 0, 70, 0, 70, 0, 70, 0, 70, 0, 70, 0, 70, 0, 70, 0, 70, 0, 70, 0,
   70, 0, 70, 0, 1]

/-- Claim C9 amended theorem (status: corrected).  For every address
`mar` with `mar ≥ 256` or `mar < -256` (the addresses Python's indexing
actually rejects), `ram_read` returns the `-1` sentinel and only appends
a diagnostic, and `ram_write` leaves RAM — and everything except the
diagnostic log — unchanged; both return normally, so the error is
non-fatal.  Moreover the concrete program that reads address 256 (one
past the end) runs to completion: the loop keeps ticking and halts at its
`HLT` with PC 27.  (Addresses in `[-256, -1]` are NOT rejected: Python
negative indexing silently serves them from the top of memory — see the
counterexample.) -/
theorem C9_oob_access_recovered (s : CPUState) (mar v : Int)
    (hlen : s.ram.length = 256) (h : 256 ≤ mar ∨ mar < -256) :
    (ram_read s mar).1 = -1 ∧
    (ram_read s mar).2 =
      { s with errors := s.errors ++ ["Error: Cannot read. MAR out of bounds"] } ∧
    ram_write s mar v =
      { s with errors := s.errors ++ ["Error: Cannot write. MAR out of bounds"] } ∧
    (run 50 (load initState oobProgram)).map (fun t => (t.running, t.pc, t.errors)) =
      .ok (false, 27, ["Error: Cannot read. MAR out of bounds"]) := by
  have hidx : pyIdx s.ram.length mar = none := by
    unfold pyIdx
    rw [hlen]
    rcases h with h | h
    · rw [if_pos (by omega), if_neg (by omega)]
    · rw [if_neg (by omega), if_neg (by push_cast; omega)]
  have hget : pyGet s.ram mar = none := by
    unfold pyGet
    rw [hidx]
    rfl
  have hset : pySet s.ram mar (v % 256) = none := by
    unfold pySet
    rw [hidx]
    rfl
  refine ⟨?_, ?_, ?_, ?_⟩
  · unfold ram_read
    rw [hget]
  · unfold ram_read
    rw [hget]
  · unfold ram_write
    rw [hset]
  · rfl

/-- Witness for C9's amended theorem at address 256 (one past the end). -/
theorem C9_oob_access_recovered_witness :
    (ram_read initState 256).1 = -1 ∧
    (ram_read initState 256).2 =
      { initState with errors := initState.errors ++ ["Error: Cannot read. MAR out of bounds"] } ∧
    ram_write initState 256 5 =
      { initState with errors := initState.errors ++ ["Error: Cannot write. MAR out of bounds"] } ∧
    (run 50 (load initState oobProgram)).map (fun t => (t.running, t.pc, t.errors)) =
      .ok (false, 27, ["Error: Cannot read. MAR out of bounds"]) :=
  C9_oob_access_recovered initState 256 5 rfl (Or.inl (by decide))

/-- Every cell of the list is an unsigned byte value. -/
def bytesOK (l : List Int) : Prop := ∀ x ∈ l, 0 ≤ x ∧ x < 256

theorem bytesOK_set {l : List Int} {i : Nat} {v : Int} (hl : bytesOK l)
    (h0 : 0 ≤ v) (h1 : v < 256) : bytesOK (l.set i v) := fun x hx =>
  (List.mem_or_eq_of_mem_set hx).elim (hl x) (fun e => e ▸ ⟨h0, h1⟩)

/-- `ram_write` masks the stored value with `0xFF`, so it preserves the
all-cells-are-bytes invariant for every value of `mdr`, in or out of
bounds. -/
theorem ram_write_bytesOK (s : CPUState) (mar mdr : Int) (h : bytesOK s.ram) :
    bytesOK (ram_write s mar mdr).ram := by
  unfold ram_write pySet
  cases hidx : pyIdx s.ram.length mar with
  | none => exact h
  | some j =>
    exact bytesOK_set h (Int.emod_nonneg _ (by decide)) (Int.emod_lt_of_pos _ (by decide))

theorem HLT_ram {s t : CPUState} (h : HLT s = .ok t) : t.ram = s.ram := by
  cases h
  rfl

theorem LDI_ram {s t : CPUState} {a b : Int} (h : LDI s a b = .ok t) : t.ram = s.ram := by
  unfold LDI at h
  cases hm : pySet s.reg a b with
  | some l => rw [hm] at h; cases h; rfl
  | none => rw [hm] at h; cases h

theorem PRN_ram {s t : CPUState} {a : Int} (h : PRN s a = .ok t) : t.ram = s.ram := by
  unfold PRN at h
  cases hm : pyGet s.reg a with
  | some v => rw [hm] at h; cases h; rfl
  | none => rw [hm] at h; cases h

theorem PUSH_bytesOK {s t : CPUState} {a : Int} (h : PUSH s a = .ok t)
    (hb : bytesOK s.ram) : bytesOK t.ram := by
  simp only [PUSH] at h
  split at h
  · cases h
    exact ram_write_bytesOK _ _ _ hb
  · cases h

theorem POP_ram {s t : CPUState} {a : Int} (h : POP s a = .ok t) : t.ram = s.ram := by
  simp only [POP] at h
  split at h
  · cases h
    exact ram_read_snd_ram s _
  · cases h

theorem CALL_bytesOK {s t : CPUState} {a : Int} (h : CALL s a = .ok t)
    (hb : bytesOK s.ram) : bytesOK t.ram := by
  simp only [CALL] at h
  split at h
  · cases h
    exact ram_write_bytesOK _ _ _ hb
  · cases h

theorem RET_ram {s t : CPUState} (h : RET s = .ok t) : t.ram = s.ram := by
  simp only [RET] at h
  cases h
  exact ram_read_snd_ram s _

theorem JMP_ram {s t : CPUState} {a : Int} (h : JMP s a = .ok t) : t.ram = s.ram := by
  simp only [JMP] at h
  split at h
  · cases h
    rfl
  · cases h

theorem JEQ_ram {s t : CPUState} {a oc : Int} (h : JEQ s a oc = .ok t) : t.ram = s.ram := by
  unfold JEQ at h
  by_cases he : s.fl.E ≠ 0
  · rw [if_pos he] at h
    exact JMP_ram h
  · rw [if_neg he] at h
    cases h
    rfl

theorem JNE_ram {s t : CPUState} {a oc : Int} (h : JNE s a oc = .ok t) : t.ram = s.ram := by
  unfold JNE at h
  by_cases he : s.fl.E = 0
  · rw [if_pos he] at h
    exact JMP_ram h
  · rw [if_neg he] at h
    cases h
    rfl

theorem aluOperate_ram {s t : CPUState} {op : String} {a b : Int}
    (h : aluOperate s op a b = .ok t) : t.ram = s.ram := by
  unfold aluOperate at h
  repeat' split at h
  all_goals cases h
  all_goals rfl

theorem coreDispatch_bytesOK {s t : CPUState} {c a b : Int}
    (h : coreDispatch s c a b = .ok t) (hb : bytesOK s.ram) : bytesOK t.ram := by
  unfold coreDispatch at h
  by_cases h1 : c = 1
  · rw [if_pos h1] at h; rw [HLT_ram h]; exact hb
  · rw [if_neg h1] at h
    by_cases h2 : c = 2
    · rw [if_pos h2] at h; rw [LDI_ram h]; exact hb
    · rw [if_neg h2] at h
      by_cases h3 : c = 7
      · rw [if_pos h3] at h; rw [PRN_ram h]; exact hb
      · rw [if_neg h3] at h
        by_cases h4 : c = 5
        · rw [if_pos h4] at h; exact PUSH_bytesOK h hb
        · rw [if_neg h4] at h
          by_cases h5 : c = 6
          · rw [if_pos h5] at h; rw [POP_ram h]; exact hb
          · rw [if_neg h5] at h; cases h; exact hb

theorem aluDispatch_bytesOK {s t : CPUState} {c a b : Int}
    (h : aluDispatch s c a b = .ok t) (hb : bytesOK s.ram) : bytesOK t.ram := by
  unfold aluDispatch at h
  by_cases h1 : c = 0
  · rw [if_pos h1] at h; rw [aluOperate_ram h]; exact hb
  · rw [if_neg h1] at h
    by_cases h2 : c = 2
    · rw [if_pos h2] at h; rw [aluOperate_ram h]; exact hb
    · rw [if_neg h2] at h
      by_cases h3 : c = 7
      · rw [if_pos h3] at h; rw [aluOperate_ram h]; exact hb
      · rw [if_neg h3] at h; cases h; exact hb

theorem pcDispatch_bytesOK {s t : CPUState} {c a oc : Int}
    (h : pcDispatch s c a oc = .ok t) (hb : bytesOK s.ram) : bytesOK t.ram := by
  unfold pcDispatch at h
  by_cases h1 : c = 0
  · rw [if_pos h1] at h; exact CALL_bytesOK h hb
  · rw [if_neg h1] at h
    by_cases h2 : c = 1
    · rw [if_pos h2] at h; rw [RET_ram h]; exact hb
    · rw [if_neg h2] at h
      by_cases h3 : c = 4
      · rw [if_pos h3] at h; rw [JMP_ram h]; exact hb
      · rw [if_neg h3] at h
        by_cases h4 : c = 5
        · rw [if_pos h4] at h; rw [JEQ_ram h]; exact hb
        · rw [if_neg h4] at h
          by_cases h5 : c = 6
          · rw [if_pos h5] at h; rw [JNE_ram h]; exact hb
          · rw [if_neg h5] at h; cases h; exact hb

/-- A single fetch-decode-execute cycle preserves the all-cells-are-bytes
RAM invariant: every path that touches RAM goes through `ram_write`. -/
theorem step_bytesOK {s t : CPUState} (h : step s = .ok t) (hb : bytesOK s.ram) :
    bytesOK t.ram := by
  unfold step at h
  simp only [] at h
  split at h
  · cases h
  · next t2 heq =>
    have hram : t.ram = t2.ram := by
      split at h <;> cases h <;> rfl
    rw [hram]
    split at heq
    · exact pcDispatch_bytesOK heq (by simp only [ram_read_snd_ram]; exact hb)
    · split at heq
      · exact aluDispatch_bytesOK heq (by simp only [ram_read_snd_ram]; exact hb)
      · exact coreDispatch_bytesOK heq (by simp only [ram_read_snd_ram]; exact hb)

theorem runLoop_bytesOK (fuel : Nat) : ∀ {s t : CPUState}, runLoop fuel s = .ok t →
    bytesOK s.ram → bytesOK t.ram := by
  induction fuel with
  | zero =>
    intro s t h hb
    cases h
    exact hb
  | succ n ih =>
    intro s t h hb
    unfold runLoop at h
    by_cases hr : s.running
    · rw [if_pos hr] at h
      cases hs : step s with
      | error e =>
        rw [hs] at h
        simp [Except.bind] at h
      | ok u =>
        rw [hs] at h
        simp only [Except.bind] at h
        exact ih h (step_bytesOK hs hb)
    · rw [if_neg hr] at h
      cases h
      exact hb

theorem loadFrom_bytesOK : ∀ (prog ram : List Int) (addr : Nat),
    bytesOK ram → (∀ b ∈ prog, 0 ≤ b ∧ b < 256) → bytesOK (loadFrom ram addr prog)
  | [], _, _, hb, _ => hb
  | b :: rest, ram, addr, hb, hp => by
    unfold loadFrom
    exact loadFrom_bytesOK rest _ _
      (bytesOK_set hb (hp b (by simp)).1 (hp b (by simp)).2)
      (fun x hx => hp x (by simp [hx]))

theorem initState_bytesOK : bytesOK initState.ram := by
  intro x hx
  rw [List.eq_of_mem_replicate hx]
  exact ⟨le_refl 0, by norm_num⟩

/-- Claim C10 (status: confirmed).  Every value stored through
`ram_write` is first reduced modulo 256 (Python's `& 0xFF` mask), so the
write preserves the all-cells-are-bytes invariant for any value, and
starting from the zeroed memory with a loaded image of bytes, every
memory cell holds a value in `[0, 255]` after any number of executed
instructions — even when the source register holds a value of 256 or
more. -/
theorem C10_ram_stays_bytes :
    (∀ (s : CPUState) (mar mdr : Int), bytesOK s.ram → bytesOK (ram_write s mar mdr).ram) ∧
    ∀ (prog : List Int) (fuel : Nat) (sf : CPUState),
      (∀ b ∈ prog, 0 ≤ b ∧ b < 256) →
      run fuel (load initState prog) = .ok sf → bytesOK sf.ram := by
  constructor
  · exact fun s mar mdr h => ram_write_bytesOK s mar mdr h
  · intro prog fuel sf hp hrun
    unfold run at hrun
    apply runLoop_bytesOK fuel hrun
    show bytesOK (load initState prog).ram
    unfold load
    exact loadFrom_bytesOK prog _ 0 initState_bytesOK hp

/-- Witness for C10: writing 300 through `ram_write` keeps RAM all bytes,
and the final state of the demo program's run has all RAM cells in
`[0, 255]`. -/
theorem C10_ram_stays_bytes_witness :
    bytesOK (ram_write initState 5 300).ram ∧
    bytesOK (((run 10 (load initState [130, 0, 8, 71, 0, 1])).toOption.getD initState).ram) :=
  ⟨C10_ram_stays_bytes.1 initState 5 300 initState_bytesOK,
   C10_ram_stays_bytes.2 [130, 0, 8, 71, 0, 1] 10 _ (by decide) rfl⟩

end LS8
